import Mathlib

/-!
Verification of the grouptravel option-evaluation engine.

This file shallowly embeds the algorithmic core of the repository
(`app/backend/services/optimiser.py`, `hotel.py`, `transfer.py`,
`pricing.py`, `whatif.py` and the ranking in `api/events.py`) in Lean 4
and proves or refutes the frozen specification claims about it.

Conventions of the embedding:
* Python `float` values are modelled as exact rationals (`ℚ`); where the
  code calls `round(x, 2)` we model Python's round-half-to-even on the
  exact rational value (`pyRound2`).
* Python `datetime` values are modelled as an integer count of minutes
  (`ℤ`); `.date()` is the floor-division by 1440, and `date` values are
  integer day numbers.
* `None`-able columns are `Option` fields, and Python truthiness tests
  (`if hotel.capacity:` etc.) are modelled explicitly: `none` and the
  zero value are both falsy.
* Database query results (`db.query(...).all()`) become explicit list
  arguments.
-/

namespace GroupTravel

/-! ## Python `round(x, 2)`: round half to even, at two decimals -/

/-- Round a rational to the nearest integer, ties to even
(the rounding mode of Python's `round`). -/
def roundHalfEven (y : ℚ) : ℤ :=
  if y - (⌊y⌋ : ℚ) < 1/2 then ⌊y⌋
  else if 1/2 < y - (⌊y⌋ : ℚ) then ⌊y⌋ + 1
  else if ⌊y⌋ % 2 = 0 then ⌊y⌋ else ⌊y⌋ + 1

/-- Python `round(x, 2)` on an exact rational. -/
def pyRound2 (x : ℚ) : ℚ := (roundHalfEven (x * 100) : ℚ) / 100

/-! ## ScoringEngine (`optimiser.py`)

`OptimiserService._calculate_score` and `_calculate_score_v2`,
lines 39-69 and 231-279 of `app/backend/services/optimiser.py`. -/

/-- Embeds `OptimiserService._calculate_score`. -/
def calculateScore (total_cost arrival_spread_minutes avg_travel_time_minutes
    connections_rate : ℚ) : ℚ :=
  total_cost * 1 +
  arrival_spread_minutes * 5 +
  avg_travel_time_minutes * 2 +
  connections_rate * 500

/-- Embeds `OptimiserService._calculate_score_v2`. -/
def calculateScoreV2 (flight_cost hotel_cost transfer_cost
    arrival_spread_minutes avg_travel_time_minutes connections_rate
    late_arrival_risk operational_complexity_score : ℚ) : ℚ :=
  flight_cost * 1 +
  hotel_cost * (8/10) +
  transfer_cost * (1/2) +
  arrival_spread_minutes * 5 +
  avg_travel_time_minutes * 2 +
  connections_rate * 500 +
  late_arrival_risk * 200 +
  operational_complexity_score * 300

/-! ## Python floats with non-finite values

For the error-handling claim about non-finite inputs we extend the
rational model with the IEEE special values that a Python `float`
argument can carry.  The scoring functions are pure arithmetic, so an
embedding of `+` and `* constant` on this domain captures exactly what
the interpreter does with them. -/

/-- A Python float: a finite (rational) value, a NaN, or a signed
infinity. -/
inductive PyFloat where
  | fin (q : ℚ)
  | nan
  | inf
  | ninf
deriving DecidableEq

namespace PyFloat

/-- IEEE addition restricted to the values that occur here. -/
def add : PyFloat → PyFloat → PyFloat
  | nan, _ => nan
  | _, nan => nan
  | inf, ninf => nan
  | ninf, inf => nan
  | inf, _ => inf
  | _, inf => inf
  | ninf, _ => ninf
  | _, ninf => ninf
  | fin a, fin b => fin (a + b)

/-- IEEE multiplication by a finite rational constant. -/
def mulc : PyFloat → ℚ → PyFloat
  | nan, _ => nan
  | inf, c => if 0 < c then inf else if c < 0 then ninf else nan
  | ninf, c => if 0 < c then ninf else if c < 0 then inf else nan
  | fin a, c => fin (a * c)

/-- Is the value finite? -/
def isFinite : PyFloat → Bool
  | fin _ => true
  | _ => false

end PyFloat

/-- Embeds `OptimiserService._calculate_score` evaluated on Python floats that
may be non-finite.  The body is the same weighted sum; the code performs
no validation of its inputs. -/
def calculateScoreF (total_cost arrival_spread_minutes
    avg_travel_time_minutes connections_rate : PyFloat) : PyFloat :=
  PyFloat.add
    (PyFloat.add
      (PyFloat.add (total_cost.mulc 1) (arrival_spread_minutes.mulc 5))
      (avg_travel_time_minutes.mulc 2))
    (connections_rate.mulc 500)

/-- Embeds `OptimiserService._calculate_score_v2` evaluated on Python floats
that may be non-finite. -/
def calculateScoreV2F (flight_cost hotel_cost transfer_cost
    arrival_spread_minutes avg_travel_time_minutes connections_rate
    late_arrival_risk operational_complexity_score : PyFloat) : PyFloat :=
  PyFloat.add
    (PyFloat.add
      (PyFloat.add
        (PyFloat.add
          (PyFloat.add
            (PyFloat.add
              (PyFloat.add (flight_cost.mulc 1) (hotel_cost.mulc (8/10)))
              (transfer_cost.mulc (1/2)))
            (arrival_spread_minutes.mulc 5))
          (avg_travel_time_minutes.mulc 2))
        (connections_rate.mulc 500))
      (late_arrival_risk.mulc 200))
    (operational_complexity_score.mulc 300)

/-! ## Stable sorting

Python's `sorted` is a stable sort.  We embed it as a stable insertion
sort, which agrees with every stable sort for the same (total) boolean
comparison. -/

/-- Insert `x` before the first element `y` with `le x y`; since every
equal element keeps `x` behind it only when it came first, this is the
stable insertion. -/
def sinsert {α : Type} (le : α → α → Bool) (x : α) : List α → List α
  | [] => [x]
  | y :: ys => if le x y then x :: y :: ys else y :: sinsert le x ys

/-- Stable insertion sort, the embedding of Python's `sorted`. -/
def ssort {α : Type} (le : α → α → Bool) : List α → List α
  | [] => []
  | x :: xs => sinsert le x (ssort le xs)

/-! ## Ranking (`api/events.py` lines 187-191)

`ranked_indices = sorted(range(len(option_results)), key=lambda i:
option_results[i].score)`. -/

/-- The comparison `sorted` performs under `key=lambda i: scores[i]`. -/
def scoreLe (scores : List ℚ) (i j : ℕ) : Bool :=
  decide (scores.getD i 0 ≤ scores.getD j 0)

/-- Embeds `ranked_indices` of the simulation endpoint: result indices stably sorted
by ascending score. -/
def rankedIndices (scores : List ℚ) : List ℕ :=
  ssort (scoreLe scores) (List.range scores.length)

/-! ## HotelAllocator (`hotel.py`) -/

/-- Schema `RoomNightAnalysis`. -/
structure RoomNightAnalysis where
  required_rooms_per_night : List ℕ
  peak_occupancy : ℕ
  shoulder_nights : ℕ
  total_room_nights : ℕ
  nights_with_peak : ℕ
deriving DecidableEq

/-- Embeds `datetime.date()`: a datetime is minutes since an epoch, its date
the floor-division by 1440 (a day number). -/
def dtDate (m : ℤ) : ℤ := Int.fdiv m 1440

/-- Embeds `rooms_per_night[d] += 1`. -/
def bumpNight (m : ℤ → ℕ) (d : ℤ) : ℤ → ℕ :=
  fun x => if x = d then m d + 1 else m x

/-- The `while current_date < check_out` loop of `compute_room_nights`,
with `n` iterations left starting at `cur`. -/
def bumpNights (m : ℤ → ℕ) (cur : ℤ) : ℕ → (ℤ → ℕ)
  | 0 => m
  | n + 1 => bumpNights (bumpNight m cur) (cur + 1) n

/-- Add one room for every night in `[checkIn, checkOut)`. -/
def bumpRange (m : ℤ → ℕ) (checkIn checkOut : ℤ) : ℤ → ℕ :=
  bumpNights m checkIn (checkOut - checkIn).toNat

/-- The `rooms_per_night` defaultdict after the loop over
`zip(arrival_dates, departure_dates)`; each pair is clamped to the
event window before counting. -/
def roomsPerNight (pairs : List (ℤ × ℤ)) (eventStart eventEnd : ℤ) : ℤ → ℕ :=
  pairs.foldl (fun m p => bumpRange m (max p.1 eventStart) (min p.2 eventEnd))
    (fun _ => 0)

/-- The `while current_date < event_end` loop building
`required_rooms`, with `n` iterations left. -/
def collectRooms (m : ℤ → ℕ) (cur : ℤ) : ℕ → List ℕ
  | 0 => []
  | n + 1 => m cur :: collectRooms m (cur + 1) n

/-- Computes `event_start`, the earliest arrival date, for a non-empty arrival list
(first element paired with the rest, as `min()` over the list). -/
def hotelEventStart (a : ℤ) (as : List ℤ) : ℤ :=
  (as.map dtDate).foldl min (dtDate a)

/-- Embeds `HotelOptimisationService.compute_room_nights` (`hotel.py` lines
13-101).  Arrivals and departures are datetimes in minutes. -/
def computeRoomNights (arrival_times departure_times : List ℤ)
    (duration_days : ℕ) : RoomNightAnalysis :=
  match arrival_times, departure_times with
  | [], _ => ⟨[], 0, 0, 0, 0⟩
  | _, [] => ⟨[], 0, 0, 0, 0⟩
  | a :: as, d :: ds =>
    let arrival_dates := (a :: as).map dtDate
    let departure_dates := (d :: ds).map dtDate
    let event_start := hotelEventStart a as
    let event_end := event_start + (duration_days : ℤ)
    let rooms := roomsPerNight (arrival_dates.zip departure_dates)
      event_start event_end
    let required_rooms := collectRooms rooms event_start
      (event_end - event_start).toNat
    let peak := required_rooms.foldr max 0
    let shoulder :=
      arrival_dates.foldl
        (fun s ad => s + if ad < event_start then (event_start - ad).toNat else 0) 0 +
      departure_dates.foldl
        (fun s dd => s + if event_end < dd then (dd - event_end).toNat else 0) 0
    { required_rooms_per_night := required_rooms
      peak_occupancy := peak
      shoulder_nights := shoulder
      total_room_nights := required_rooms.sum + shoulder
      nights_with_peak := required_rooms.countP (· = peak) }

/-- The nullable `hotels` columns `select_optimal_hotel` reads.
`hotel_name` is carried as the numeric id for brevity. -/
structure Hotel where
  id : ℕ
  corporate_rate : Option ℚ
  distance_to_venue_km : Option ℚ
  capacity : Option ℕ
deriving DecidableEq

/-- Python truthiness of a nullable float: `None` and `0.0` are falsy. -/
def qTruthy : Option ℚ → Bool
  | none => false
  | some q => q ≠ 0

/-- Python truthiness of a nullable int: `None` and `0` are falsy. -/
def nTruthy : Option ℕ → Bool
  | none => false
  | some n => n ≠ 0

/-- Embeds `HotelOptimisationService.calculate_hotel_cost` (`hotel.py` lines
184-211): `if not hotel.corporate_rate: return room_nights * 150.0`,
otherwise event nights plus extra nights at the corporate rate. -/
def calculateHotelCost (hotel : Hotel) (room_nights extra_nights : ℕ) : ℚ :=
  if qTruthy hotel.corporate_rate then
    (room_nights : ℚ) * hotel.corporate_rate.getD 0 +
      (extra_nights : ℚ) * hotel.corporate_rate.getD 0
  else
    (room_nights : ℚ) * 150

/-- The `continue` guard of the scoring loop:
`if hotel.capacity and hotel.capacity < peak_occupancy`. -/
def capacitySkip (hotel : Hotel) (peak : ℕ) : Bool :=
  nTruthy hotel.capacity && decide (hotel.capacity.getD 0 < peak)

/-- The weighted hotel score of `select_optimal_hotel`: rate weight 100
(penalty 10000 for a falsy rate), distance weight 10, and capacity-gap
weight 5, the latter two skipped for falsy columns. -/
def hotelScore (hotel : Hotel) (peak : ℕ) : ℚ :=
  (if qTruthy hotel.corporate_rate then hotel.corporate_rate.getD 0 * 100
   else 10000) +
  (if qTruthy hotel.distance_to_venue_km then
    hotel.distance_to_venue_km.getD 0 * 10 else 0) +
  (if nTruthy hotel.capacity then
    (((hotel.capacity.getD 0 : ℤ) - (peak : ℤ)).natAbs : ℚ) * 5 else 0)

/-- One iteration of the `best_hotel` selection loop: skipped hotels
leave the best unchanged, otherwise a strictly smaller score replaces
it (`best_score` starts at infinity, so the first survivor always
does). -/
def pickStep (peak : ℕ) (best : Option Hotel) (h : Hotel) : Option Hotel :=
  if capacitySkip h peak then best
  else match best with
    | none => some h
    | some b => if hotelScore h peak < hotelScore b peak then some h else best

/-- The `best_hotel` selection loop of `select_optimal_hotel`. -/
def pickBestHotel (hotels : List Hotel) (peak : ℕ) : Option Hotel :=
  hotels.foldl (pickStep peak) none

/-- Schema `HotelAssignment` (`hotel_name` elided). -/
structure HotelAssignment where
  hotel_id : ℕ
  total_cost : ℚ
  room_nights : ℕ
  extra_nights : ℕ
  room_night_analysis : RoomNightAnalysis
deriving DecidableEq

/-- Embeds `HotelOptimisationService.select_optimal_hotel` (`hotel.py` lines
103-182).  `hotels` is the result of the airport/approved database
query. -/
def selectOptimalHotel (hotels : List Hotel) (rn : RoomNightAnalysis) :
    Option HotelAssignment :=
  if hotels = [] then none
  else
    match pickBestHotel hotels rn.peak_occupancy with
    | none => none
    | some best => some
      { hotel_id := best.id
        total_cost := calculateHotelCost best rn.total_room_nights rn.shoulder_nights
        room_nights := rn.total_room_nights
        extra_nights := rn.shoulder_nights
        room_night_analysis := rn }

/-! ## TransferBatcher (`transfer.py`)

Datetimes are minutes (`ℤ`); attendee ids are abstract ordered tokens
(`ℕ` here; Python compares the id strings lexicographically when two
arrival times tie, any total order gives the same wave structure). -/

/-- Schema `TransferWave`. -/
structure TransferWave where
  wave_start : ℤ
  wave_end : ℤ
  attendee_count : ℕ
  attendee_ids : List ℕ
deriving DecidableEq

/-- The `TransferMode` enumeration. -/
inductive TransferMode where
  | uber | van | train | bus
deriving DecidableEq

/-- The `transfer_options` columns `optimize_transfers` reads. -/
structure TransferOption where
  mode : TransferMode
  capacity : ℕ
  cost_per_trip : ℚ
deriving DecidableEq

/-- Schema `TransferLeg`. -/
structure TransferLeg where
  wave : TransferWave
  mode : TransferMode
  vehicle_count : ℕ
  total_cost : ℚ
  capacity_utilization : ℚ
deriving DecidableEq

/-- Schema `TransferPlan` (`airport_code`/`hotel_id` are copied through
unchanged and elided here). -/
structure TransferPlan where
  total_cost : ℚ
  total_vehicles : ℕ
  legs : List TransferLeg
  operational_complexity_score : ℚ
deriving DecidableEq

/-- Embeds `sorted(zip(arrival_times, attendee_ids))`: lexicographic pair
comparison. -/
def pairLe (p q : ℤ × ℕ) : Bool :=
  decide (p.1 < q.1 ∨ (p.1 = q.1 ∧ p.2 ≤ q.2))

/-- The wave-accumulation loop of `compute_arrival_waves`: the current
open wave `ws` absorbs every arrival `≤ ws.wave_end`; the first later
arrival closes it and anchors a fresh wave. -/
def wavesGo (window : ℤ) (ws : TransferWave) :
    List (ℤ × ℕ) → List TransferWave
  | [] => [ws]
  | (t, i) :: rest =>
    if t ≤ ws.wave_end then
      wavesGo window
        { ws with
          attendee_count := ws.attendee_count + 1
          attendee_ids := ws.attendee_ids ++ [i] } rest
    else
      ws :: wavesGo window ⟨t, t + window, 1, [i]⟩ rest

/-- Embeds `TransferBatchingService.compute_arrival_waves` (`transfer.py`
lines 16-82).  Empty input yields no waves; a length mismatch raises
`ValueError` (here `none`). -/
def computeArrivalWaves (arrival_times : List ℤ) (attendee_ids : List ℕ)
    (wave_window_minutes : ℤ) : Option (List TransferWave) :=
  if arrival_times = [] ∨ attendee_ids = [] then some []
  else if arrival_times.length ≠ attendee_ids.length then none
  else some
    (match ssort pairLe (arrival_times.zip attendee_ids) with
     | [] => []
     | (t, i) :: rest => wavesGo wave_window_minutes ⟨t, t + wave_window_minutes, 1, [i]⟩ rest)

/-- The specification's description of wave clustering: anchor a wave at
the first unclustered arrival, fix `wave_end = wave_start + window`,
absorb the arrivals up to `wave_end`, and recurse on the first arrival
beyond it. -/
def specWaves (window : ℤ) : List (ℤ × ℕ) → List TransferWave
  | [] => []
  | (t, i) :: rest =>
    ⟨t, t + window,
      1 + (rest.takeWhile (fun p => p.1 ≤ t + window)).length,
      i :: (rest.takeWhile (fun p => p.1 ≤ t + window)).map Prod.snd⟩ ::
      specWaves window (rest.dropWhile (fun p => p.1 ≤ t + window))
termination_by l => l.length
decreasing_by
  simp only [List.length_cons]
  exact Nat.lt_succ_of_le (List.dropWhile_sublist _).length_le

/-- Embeds `next((to for to in transfer_options if to.mode == m), None)` with
the `transfer_options[0]` fallback of `optimize_transfers`. -/
def chooseOption (options : List TransferOption) (m : TransferMode) :
    Option TransferOption :=
  match options.find? (fun o => o.mode = m) with
  | some o => some o
  | none => options.head?

/-- One leg of the per-wave optimisation loop: a van (with ceiling
division for the vehicle count) for waves at or above the threshold of
3, otherwise one individual trip per attendee. -/
def legForWave (van uber : TransferOption) (wave : TransferWave) : TransferLeg :=
  if 3 ≤ wave.attendee_count then
    let vehicles := (wave.attendee_count + van.capacity - 1) / van.capacity
    { wave := wave
      mode := TransferMode.van
      vehicle_count := vehicles
      total_cost := (vehicles : ℚ) * van.cost_per_trip
      capacity_utilization := (wave.attendee_count : ℚ) / ((vehicles * van.capacity : ℕ) : ℚ) }
  else
    { wave := wave
      mode := TransferMode.uber
      vehicle_count := wave.attendee_count
      total_cost := (wave.attendee_count : ℚ) * uber.cost_per_trip
      capacity_utilization := 1 }

/-- Embeds `TransferBatchingService.calculate_complexity_score` (`transfer.py`
lines 184-213). -/
def calculateComplexityScore (legs : List TransferLeg)
    (total_vehicles : ℕ) : ℚ :=
  let avg_utilization :=
    if legs = [] then 1
    else (legs.map TransferLeg.capacity_utilization).sum / (legs.length : ℚ)
  (total_vehicles : ℚ) * 10 + (legs.length : ℚ) * 5 +
    ((legs.map TransferLeg.mode).dedup.length : ℚ) * 3 +
    (1 - avg_utilization) * 20

/-- Embeds `TransferBatchingService.optimize_transfers` (`transfer.py` lines
84-182).  `options` is the result of the airport/hotel database query. -/
def optimizeTransfers (waves : List TransferWave)
    (options : List TransferOption) : Option TransferPlan :=
  if options = [] then none
  else
    match chooseOption options TransferMode.van,
          chooseOption options TransferMode.uber with
    | some van, some uber =>
      let legs := waves.map (legForWave van uber)
      let total_cost := (legs.map TransferLeg.total_cost).sum
      let total_vehicles := (legs.map TransferLeg.vehicle_count).sum
      some
        { total_cost := pyRound2 total_cost
          total_vehicles := total_vehicles
          legs := legs
          operational_complexity_score := calculateComplexityScore legs total_vehicles }
    | _, _ => none

/-! ## WhatIfExplorer (`whatif.py`)

Only the fields `evaluate_proposals` and `_apply_proposal` read are
modelled.  Dates are day numbers; Python raising is `Except.error`. -/

/-- The per-option fields the explorer reads. -/
structure OptionResult where
  total_cost : ℚ
  score : ℚ
deriving DecidableEq

/-- A stored simulation result (`results` plus `ranked_options`). -/
structure SimulationRun where
  results : List OptionResult
  ranked_options : List ℕ
deriving DecidableEq

/-- The `Event` columns the explorer reads; a date window is a
(start-day, end-day) pair. -/
structure Event where
  name : String
  candidate_locations : List String
  candidate_date_windows : List (ℤ × ℤ)
  duration_days : ℕ
deriving DecidableEq

/-- Embeds `WhatIfProposal` with its `variation_data` dictionary flattened
into the fields the generated proposal types populate. -/
structure WhatIfProposal where
  ptype : String
  shift_days : ℤ
  original : String
  alternative : String
deriving DecidableEq

/-- Embeds `WhatIfResult`. -/
structure WhatIfResult where
  delta_cost : ℚ
  delta_score : ℚ
  new_result : OptionResult
  baseline_result : OptionResult
deriving DecidableEq

/-- Python exceptions that can escape the explorer. -/
inductive PyErr where
  | nameErrorAlt
  | indexError
deriving DecidableEq

/-- Embeds `WhatIfExplorationService._apply_proposal` (`whatif.py` lines
168-218).  The `nearby_airport` branch rebuilds the location list with
`alt if loc == original else loc`, but no variable `alt` is in scope:
as soon as some location equals `original` the comprehension raises
`NameError`; otherwise the list is rebuilt unchanged.  Unsupported
proposal types fall through to `None`.  (The cosmetic name suffixes the
code builds with f-strings are abbreviated here; no claim reads
them.) -/
def applyProposal (event : Event) (proposal : WhatIfProposal) :
    Except PyErr (Option Event) :=
  if proposal.ptype = "date_shift" then
    Except.ok (some
      { event with
        name := event.name ++ " (shifted)"
        candidate_date_windows := event.candidate_date_windows.map
          (fun w => (w.1 + proposal.shift_days, w.2 + proposal.shift_days)) })
  else if proposal.ptype = "nearby_airport" then
    if event.candidate_locations.contains proposal.original then
      Except.error PyErr.nameErrorAlt
    else
      Except.ok (some { event with name := event.name ++ " (variant)" })
  else
    Except.ok none

/-- Embeds `min(option_results, key=lambda x: x.score)`: the first option with
minimal score (`none` on an empty list). -/
def bestOption : List OptionResult → Option OptionResult
  | [] => none
  | r :: rest => some (rest.foldl (fun b x => if x.score < b.score then x else b) r)

/-- The proposal loop of `evaluate_proposals`: unmappable proposals and
empty re-simulations are skipped, everything else contributes a
`WhatIfResult` with rounded deltas against `baseline_best`. -/
def evalProposalsGo (simulateFn : Event → List OptionResult) (event : Event)
    (baseline_best : OptionResult) :
    List WhatIfProposal → Except PyErr (List WhatIfResult)
  | [] => Except.ok []
  | p :: ps =>
    match applyProposal event p with
    | Except.error e => Except.error e
    | Except.ok none => evalProposalsGo simulateFn event baseline_best ps
    | Except.ok (some modified) =>
      match bestOption (simulateFn modified) with
      | none => evalProposalsGo simulateFn event baseline_best ps
      | some best =>
        (evalProposalsGo simulateFn event baseline_best ps).map
          (fun rest =>
            { delta_cost := pyRound2 (best.total_cost - baseline_best.total_cost)
              delta_score := pyRound2 (best.score - baseline_best.score)
              new_result := best
              baseline_result := baseline_best } :: rest)

/-- Embeds `WhatIfExplorationService.evaluate_proposals` (`whatif.py` lines
112-166); the simulator re-run is abstracted as `simulateFn`. -/
def evaluateProposals (simulateFn : Event → List OptionResult)
    (proposals : List WhatIfProposal) (event : Event)
    (baseline : SimulationRun) : Except PyErr (List WhatIfResult) :=
  match baseline.results.get? (baseline.ranked_options.headD 0) with
  | none => Except.error PyErr.indexError
  | some baseline_best => evalProposalsGo simulateFn event baseline_best proposals

/-! ## MockPricingProvider (`pricing.py`)

`_generate_itinerary` prices from a random generator seeded by
`int(md5(seed).hexdigest(), 16)` where
`seed = f"{origin}{destination}{depart_date}{return_date}{str(constraints)}"`.
Python strings are embedded as lists of byte values (all inputs are
ASCII), and the full byte-level pipeline — MD5, the CPython
`init_by_array` seeding of the Mersenne Twister, and `random()` — is
embedded so the resulting price is the exact rational the interpreter
computes (floats modelled exactly; `random()` is exactly
`(a*2^26 + b) / 2^53`). -/

/-- Truncation to 32 bits. -/
def w32 (x : ℕ) : ℕ := x % 4294967296

/-- 32-bit bitwise complement. -/
def not32 (x : ℕ) : ℕ := x ^^^ 4294967295

/-- 32-bit left rotation (for `c < 32` and 32-bit `x`). -/
def rotl32 (x c : ℕ) : ℕ := w32 ((x <<< c) + (x >>> (32 - c)))

/-- The MD5 per-round shift amounts. -/
def md5S : List ℕ :=
  [7, 12, 17, 22, 7, 12, 17, 22, 7, 12, 17, 22, 7, 12, 17, 22,
   5, 9, 14, 20, 5, 9, 14, 20, 5, 9, 14, 20, 5, 9, 14, 20,
   4, 11, 16, 23, 4, 11, 16, 23, 4, 11, 16, 23, 4, 11, 16, 23,
   6, 10, 15, 21, 6, 10, 15, 21, 6, 10, 15, 21, 6, 10, 15, 21]

/-- The MD5 sine-derived round constants. -/
def md5K : List ℕ :=
  [3614090360, 3905402710, 606105819, 3250441966, 4118548399, 1200080426,
   2821735955, 4249261313, 1770035416, 2336552879, 4294925233, 2304563134,
   1804603682, 4254626195, 2792965006, 1236535329, 4129170786, 3225465664,
   643717713, 3921069994, 3593408605, 38016083, 3634488961, 3889429448,
   568446438, 3275163606, 4107603335, 1163531501, 2850285829, 4243563512,
   1735328473, 2368359562, 4294588738, 2272392833, 1839030562, 4259657740,
   2763975236, 1272893353, 4139469664, 3200236656, 681279174, 3936430074,
   3572445317, 76029189, 3654602809, 3873151461, 530742520, 3299628645,
   4096336452, 1126891415, 2878612391, 4237533241, 1700485571, 2399980690,
   4293915773, 2240044497, 1873313359, 4264355552, 2734768916, 1309151649,
   4149444226, 3174756917, 718787259, 3951481745]

/-- The MD5 nonlinear function of round `i`. -/
def md5F (i b c d : ℕ) : ℕ :=
  if i < 16 then (b &&& c) ||| (not32 b &&& d)
  else if i < 32 then (d &&& b) ||| (not32 d &&& c)
  else if i < 48 then b ^^^ c ^^^ d
  else c ^^^ (b ||| not32 d)

/-- The MD5 message-word index of round `i`. -/
def md5G (i : ℕ) : ℕ :=
  if i < 16 then i
  else if i < 32 then (5 * i + 1) % 16
  else if i < 48 then (3 * i + 5) % 16
  else (7 * i) % 16

/-- A 64-bit little-endian length field as eight bytes. -/
def le8 (n : ℕ) : List ℕ :=
  (List.range 8).map (fun i => (n >>> (8 * i)) % 256)

/-- MD5 padding: a `0x80` byte, zeros to 56 mod 64, then the bit length. -/
def md5Pad (msg : List ℕ) : List ℕ :=
  msg ++ 128 :: List.replicate ((120 - (msg.length + 1) % 64) % 64) 0 ++
    le8 (msg.length * 8 % 18446744073709551616)

/-- The sixteen little-endian 32-bit words of a 64-byte chunk. -/
def chunkWords (chunk : List ℕ) : List ℕ :=
  (List.range 16).map (fun i =>
    chunk.getD (4 * i) 0 + chunk.getD (4 * i + 1) 0 * 256 +
      chunk.getD (4 * i + 2) 0 * 65536 + chunk.getD (4 * i + 3) 0 * 16777216)

/-- One MD5 round applied to the `(A, B, C, D)` register tuple. -/
def md5Round (m : List ℕ) (r : ℕ × ℕ × ℕ × ℕ) (i : ℕ) : ℕ × ℕ × ℕ × ℕ :=
  match r with
  | (a, b, c, d) =>
    let f := w32 (md5F i b c d + a + md5K.getD i 0 + m.getD (md5G i) 0)
    (d, w32 (b + rotl32 f (md5S.getD i 0)), b, c)

/-- One 64-byte MD5 chunk folded into the running digest registers. -/
def md5Chunk (h : ℕ × ℕ × ℕ × ℕ) (chunk : List ℕ) : ℕ × ℕ × ℕ × ℕ :=
  let m := chunkWords chunk
  match h, (List.range 64).foldl (md5Round m) h with
  | (h0, h1, h2, h3), (a, b, c, d) =>
    (w32 (h0 + a), w32 (h1 + b), w32 (h2 + c), w32 (h3 + d))

/-- Split a byte list into 64-byte chunks (fuel-indexed loop). -/
def chunks64Go : ℕ → List ℕ → List (List ℕ)
  | 0, _ => []
  | _, [] => []
  | fuel + 1, x :: xs => ((x :: xs).take 64) :: chunks64Go fuel ((x :: xs).drop 64)

/-- Split a byte list into 64-byte chunks. -/
def chunks64 (l : List ℕ) : List (List ℕ) := chunks64Go l.length l

/-- A 32-bit word as four little-endian bytes. -/
def le4 (x : ℕ) : List ℕ :=
  [x % 256, (x >>> 8) % 256, (x >>> 16) % 256, (x >>> 24) % 256]

/-- A byte string read as a big-endian integer
(`int(hexdigest, 16)` of the digest). -/
def beInt (bytes : List ℕ) : ℕ := bytes.foldl (fun acc b => acc * 256 + b) 0

/-- Embeds `int(hashlib.md5(seed).hexdigest(), 16)` on a byte string. -/
def md5Int (msg : List ℕ) : ℕ :=
  match (chunks64 (md5Pad msg)).foldl md5Chunk
    (1732584193, 4023233417, 2562383102, 271733878) with
  | (a, b, c, d) => beInt (le4 a ++ le4 b ++ le4 c ++ le4 d)

/-! The Mersenne Twister, as CPython seeds and steps it.  The 624-word
state is packed into a single natural number, word `i` occupying bits
`[32*i, 32*i + 32)`. -/

/-- Evaluation-order helper: definitionally the identity on `x`, but
forces the numeral `n` when the kernel reduces it, so that iterated
state updates are normalised step by step instead of accumulating as
one deeply nested thunk. -/
def nforce {α : Type} (n : ℕ) (x : α) : α := if n = 0 then x else x

/-- Word `i` of a packed Twister state. -/
def mtGet (s i : ℕ) : ℕ := (s >>> (32 * i)) % 4294967296

/-- Packed Twister state with word `i` replaced by `v`. -/
def mtSet (s i v : ℕ) : ℕ := s - mtGet s i * 2 ^ (32 * i) + v * 2 ^ (32 * i)

/-- The `init_genrand` fill loop: `n` words left to write at index `i`,
`prev` the previous word, `acc` the packed words so far. -/
def mtInitGo (prev i acc : ℕ) : ℕ → ℕ
  | 0 => acc
  | n + 1 =>
    let v := w32 (1812433253 * (prev ^^^ (prev >>> 30)) + i)
    let acc := acc + v * 2 ^ (32 * i)
    nforce acc (mtInitGo v (i + 1) acc n)

/-- Embeds `init_genrand(s)`. -/
def mtInit (s : ℕ) : ℕ := mtInitGo (w32 s) 1 (w32 s) 623

/-- The first `init_by_array` mixing loop (`max(624, len(key))`
iterations), returning the state and the index where the second loop
starts. -/
def mtMix1 (key : List ℕ) : ℕ → ℕ → ℕ → ℕ → ℕ × ℕ
  | 0, st, i, _ => (st, i)
  | n + 1, st, i, j =>
    let prev := mtGet st (i - 1)
    let v := w32 ((mtGet st i ^^^ w32 ((prev ^^^ (prev >>> 30)) * 1664525)) +
      key.getD j 0 + j)
    let st := mtSet st i v
    let i := i + 1
    let j := j + 1
    let st := if 624 ≤ i then mtSet st 0 (mtGet st 623) else st
    let i := if 624 ≤ i then 1 else i
    let j := if key.length ≤ j then 0 else j
    nforce st (mtMix1 key n st i j)

/-- The second `init_by_array` mixing loop (623 iterations); the
in-loop subtraction of `i` is 32-bit wraparound. -/
def mtMix2 : ℕ → ℕ → ℕ → ℕ
  | 0, st, _ => st
  | n + 1, st, i =>
    let prev := mtGet st (i - 1)
    let v := (mtGet st i ^^^ w32 ((prev ^^^ (prev >>> 30)) * 1566083941)) +
      (4294967296 - i)
    let st := mtSet st i (w32 v)
    let i := i + 1
    let st := if 624 ≤ i then mtSet st 0 (mtGet st 623) else st
    let i := if 624 ≤ i then 1 else i
    nforce st (mtMix2 n st i)

/-- Embeds `init_by_array(key)`: the full CPython seeding. -/
def mtSeedKey (key : List ℕ) : ℕ :=
  let st := mtInit 19650218
  match mtMix1 key (max 624 key.length) st 1 0 with
  | (st, i) => mtSet (mtMix2 623 st i) 0 2147483648

/-- One in-place step of the state-refresh (twist) loop. -/
def mtTwistStep (st i : ℕ) : ℕ :=
  let y := (mtGet st i &&& 2147483648) + (mtGet st ((i + 1) % 624) &&& 2147483647)
  let v := mtGet st ((i + 397) % 624) ^^^ (y >>> 1) ^^^
    (if y % 2 = 1 then 2567483615 else 0)
  mtSet st i v

/-- The state-refresh loop over indices `i`, `n` iterations left. -/
def mtTwistGo : ℕ → ℕ → ℕ → ℕ
  | 0, st, _ => st
  | n + 1, st, i =>
    let st := mtTwistStep st i
    nforce st (mtTwistGo n st (i + 1))

/-- The full state refresh performed on the first `genrand_int32`. -/
def mtTwist (st : ℕ) : ℕ := mtTwistGo 624 st 0

/-- The `genrand_int32` output tempering. -/
def mtTemper (x : ℕ) : ℕ :=
  let y := x ^^^ (x >>> 11)
  let y := y ^^^ ((y <<< 7) &&& 2636928640)
  let y := y ^^^ ((y <<< 15) &&& 4022730752)
  y ^^^ (y >>> 18)

/-- CPython's conversion of a (positive) seed integer into the 32-bit
key array for `init_by_array`, least-significant word first.  The fuel
`n + 1` strictly dominates the number of 32-bit digits. -/
def natKeyGo : ℕ → ℕ → List ℕ
  | 0, _ => []
  | fuel + 1, n => if n < 4294967296 then [n] else n % 4294967296 :: natKeyGo fuel (n / 4294967296)

/-- The `init_by_array` key of a seed integer. -/
def natKey (n : ℕ) : List ℕ := natKeyGo (n + 1) n

/-- The 53-bit numerator of `random.Random(seedInt).random()`: seed,
refresh, temper the first two outputs, and combine
`a * 2^26 + b`. -/
def pyRandomNum (seedInt : ℕ) : ℕ :=
  let st := mtTwist (mtSeedKey (natKey seedInt))
  let a := mtTemper (mtGet st 0) >>> 5
  let b := mtTemper (mtGet st 1) >>> 6
  a * 67108864 + b

/-- Embeds `random.Random(seedInt).random()` as the exact rational
`(a*2^26 + b) * (1/2^53)` of `genrand_res53`. -/
def pyRandomU (seedInt : ℕ) : ℚ :=
  (pyRandomNum seedInt : ℚ) / 9007199254740992

/-- The bytes of `"{'travel_class': '"`, the prefix `str(constraints)`
contributes to the seed for the constraint dictionaries the optimiser
builds. -/
def constraintsPre : List ℕ :=
  [123, 39, 116, 114, 97, 118, 101, 108, 95, 99, 108, 97, 115, 115, 39, 58,
   32, 39]

/-- The bytes of
`"', 'preferred_airlines': [], 'time_constraints': {}}"`, the suffix of
`str(constraints)` for empty airline and time-constraint entries. -/
def constraintsPost : List ℕ :=
  [39, 44, 32, 39, 112, 114, 101, 102, 101, 114, 114, 101, 100, 95, 97, 105,
   114, 108, 105, 110, 101, 115, 39, 58, 32, 91, 93, 44, 32, 39, 116, 105,
   109, 101, 95, 99, 111, 110, 115, 116, 114, 97, 105, 110, 116, 115, 39,
   58, 32, 123, 125, 125]

/-- The seed string
`f"{origin}{destination}{depart_date}{return_date}{str(constraints)}"`,
as bytes, for a constraint dictionary with the given travel class and
empty airline/time entries. -/
def seedBytes (origin destination depart_date return_date travel_class :
    List ℕ) : List ℕ :=
  origin ++ destination ++ depart_date ++ return_date ++
    constraintsPre ++ travel_class ++ constraintsPost

/-- The bytes of `"economy"`. -/
def economyBytes : List ℕ := [101, 99, 111, 110, 111, 109, 121]

/-- The bytes of `"premium_economy"`. -/
def premiumBytes : List ℕ :=
  [112, 114, 101, 109, 105, 117, 109, 95, 101, 99, 111, 110, 111, 109, 121]

/-- The bytes of `"business"`. -/
def businessBytes : List ℕ := [98, 117, 115, 105, 110, 101, 115, 115]

/-- The bytes of `"first"`. -/
def firstBytes : List ℕ := [102, 105, 114, 115, 116]

/-- Embeds `class_multipliers.get(travel_class, 1.0)`. -/
def classMultiplier (travel_class : List ℕ) : ℚ :=
  if travel_class = economyBytes then 1
  else if travel_class = premiumBytes then 3 / 2
  else if travel_class = businessBytes then 3
  else if travel_class = firstBytes then 5
  else 1

/-- The base-price draw of `_generate_itinerary`:
`200.0 + rng.random() * 1800.0` for the seed of the given request. -/
def mockBasePrice (origin destination depart_date return_date travel_class :
    List ℕ) : ℚ :=
  200 + pyRandomU (md5Int (seedBytes origin destination depart_date
    return_date travel_class)) * 1800

/-- The price of the itinerary `_generate_itinerary` returns (with
`volatile=False`): the class-adjusted base price rounded to cents.
`get_best_itinerary` returns it unchanged on a cold cache. -/
def mockPrice (origin destination depart_date return_date travel_class :
    List ℕ) : ℚ :=
  pyRound2 (mockBasePrice origin destination depart_date return_date
    travel_class * classMultiplier travel_class)

/-- The bytes of `"LIS"`. -/
def lisBytes : List ℕ := [76, 73, 83]

/-- The bytes of `"DXB"`. -/
def dxbBytes : List ℕ := [68, 88, 66]

/-- The bytes of `"JFK"`. -/
def jfkBytes : List ℕ := [74, 70, 75]

/-- The bytes of `"MUC"`. -/
def mucBytes : List ℕ := [77, 85, 67]

/-- The bytes of `"2024-06-01"` (`str` of the departure date). -/
def d0601Bytes : List ℕ := [50, 48, 50, 52, 45, 48, 54, 45, 48, 49]

/-- The bytes of `"2024-06-04"` (`str` of the return date). -/
def d0604Bytes : List ℕ := [50, 48, 50, 52, 45, 48, 54, 45, 48, 52]

/-! ## Lemmas about Python rounding -/

theorem roundHalfEven_intCast (k : ℤ) : roundHalfEven (k : ℚ) = k := by
  unfold roundHalfEven
  rw [Int.floor_intCast]
  norm_num

theorem roundHalfEven_bounds (y : ℚ) :
    y - 1/2 ≤ (roundHalfEven y : ℚ) ∧ (roundHalfEven y : ℚ) ≤ y + 1/2 := by
  have h1 : (⌊y⌋ : ℚ) ≤ y := Int.floor_le y
  have h2 : y < ⌊y⌋ + 1 := Int.lt_floor_add_one y
  unfold roundHalfEven
  split_ifs with ha hb hc <;> constructor <;> push_cast <;> linarith

theorem pyRound2_low (x : ℚ) (k : ℤ) (h1 : (k : ℚ) ≤ x * 100)
    (h2 : x * 100 < k + 1/2) : pyRound2 x = (k : ℚ) / 100 := by
  have hf : ⌊x * 100⌋ = k := Int.floor_eq_iff.mpr ⟨h1, by linarith⟩
  unfold pyRound2 roundHalfEven
  rw [hf]
  rw [if_pos (by linarith)]

theorem pyRound2_high (x : ℚ) (k : ℤ) (h1 : (k : ℚ) + 1/2 < x * 100)
    (h2 : x * 100 < k + 1) : pyRound2 x = ((k + 1 : ℤ) : ℚ) / 100 := by
  have hf : ⌊x * 100⌋ = k := Int.floor_eq_iff.mpr ⟨by linarith, by linarith⟩
  unfold pyRound2 roundHalfEven
  rw [hf]
  rw [if_neg (by linarith), if_pos (by linarith)]

theorem pyRound2_int (x : ℚ) (k : ℤ) (h : x * 100 = (k : ℚ)) : pyRound2 x = x := by
  unfold pyRound2
  rw [h, roundHalfEven_intCast]
  rw [div_eq_iff (by norm_num : (100 : ℚ) ≠ 0)]
  linarith

theorem pyRound2_bounds (x : ℚ) :
    x - 1/200 ≤ pyRound2 x ∧ pyRound2 x ≤ x + 1/200 := by
  obtain ⟨h1, h2⟩ := roundHalfEven_bounds (x * 100)
  unfold pyRound2
  constructor <;> linarith

/-! ## Lemmas about the stable insertion sort -/

theorem mem_sinsert {α : Type} (le : α → α → Bool) (x a : α) (l : List α) :
    a ∈ sinsert le x l ↔ a = x ∨ a ∈ l := by
  induction l with
  | nil => simp [sinsert]
  | cons y ys ih =>
    by_cases h : le x y
    · simp [sinsert, h]
    · simp [sinsert, h, ih]
      tauto

theorem sinsert_perm {α : Type} (le : α → α → Bool) (x : α) (l : List α) :
    List.Perm (sinsert le x l) (x :: l) := by
  induction l with
  | nil => exact List.Perm.refl _
  | cons y ys ih =>
    by_cases h : le x y
    · simp [sinsert, h]
    · simp only [sinsert, h, Bool.false_eq_true, if_false]
      exact (List.Perm.cons y ih).trans (List.Perm.swap x y ys)

theorem ssort_perm {α : Type} (le : α → α → Bool) (l : List α) :
    List.Perm (ssort le l) l := by
  induction l with
  | nil => exact List.Perm.refl _
  | cons x xs ih => exact (sinsert_perm le x (ssort le xs)).trans (List.Perm.cons x ih)

theorem sinsert_pairwise {α : Type} (le : α → α → Bool)
    (htot : ∀ a b, le a b = true ∨ le b a = true)
    (htrans : ∀ a b c, le a b = true → le b c = true → le a c = true)
    (x : α) (l : List α) (hl : l.Pairwise (fun a b => le a b = true)) :
    (sinsert le x l).Pairwise (fun a b => le a b = true) := by
  induction l with
  | nil => simp [sinsert]
  | cons y ys ih =>
    rcases List.pairwise_cons.mp hl with ⟨hy, hys⟩
    by_cases h : le x y
    · simp only [sinsert, h, if_true]
      refine List.pairwise_cons.mpr ⟨?_, hl⟩
      intro z hz
      rcases List.mem_cons.mp hz with rfl | hz
      · exact h
      · exact htrans x y z h (hy z hz)
    · simp only [sinsert, h, Bool.false_eq_true, if_false]
      refine List.pairwise_cons.mpr ⟨?_, ih hys⟩
      intro z hz
      rcases (mem_sinsert le x z ys).mp hz with rfl | hz
      · rcases htot z y with hcase | hcase
        · exact absurd hcase h
        · exact hcase
      · exact hy z hz

theorem ssort_pairwise {α : Type} (le : α → α → Bool)
    (htot : ∀ a b, le a b = true ∨ le b a = true)
    (htrans : ∀ a b c, le a b = true → le b c = true → le a c = true)
    (l : List α) : (ssort le l).Pairwise (fun a b => le a b = true) := by
  induction l with
  | nil => simp [ssort]
  | cons x xs ih => exact sinsert_pairwise le htot htrans x (ssort le xs) ih

/-- The strict lexicographic relation on result indices: strictly
smaller score, or equal score and original (index) order. -/
def slexOn (scores : List ℚ) (i j : ℕ) : Prop :=
  scores.getD i 0 < scores.getD j 0 ∨
    (scores.getD i 0 = scores.getD j 0 ∧ i < j)

theorem sinsert_pairwise_slex (scores : List ℚ) (x : ℕ) (l : List ℕ)
    (hl : l.Pairwise (slexOn scores)) (hx : ∀ z ∈ l, x < z) :
    (sinsert (scoreLe scores) x l).Pairwise (slexOn scores) := by
  induction l with
  | nil => simp [sinsert]
  | cons y ys ih =>
    rcases List.pairwise_cons.mp hl with ⟨hy, hys⟩
    by_cases h : scoreLe scores x y
    · have hxy : scores.getD x 0 ≤ scores.getD y 0 := of_decide_eq_true h
      simp only [sinsert, h, if_true]
      refine List.pairwise_cons.mpr ⟨?_, hl⟩
      intro z hz
      rcases List.mem_cons.mp hz with heqz | hz
      · subst heqz
        rcases lt_or_eq_of_le hxy with hlt | heq
        · exact Or.inl hlt
        · exact Or.inr ⟨heq, hx z (List.mem_cons_self z ys)⟩
      · rcases hy z hz with hlt | ⟨heq, _⟩
        · exact Or.inl (lt_of_le_of_lt hxy hlt)
        · have hxz : scores.getD x 0 ≤ scores.getD z 0 := heq ▸ hxy
          rcases lt_or_eq_of_le hxz with hlt | heq2
          · exact Or.inl hlt
          · exact Or.inr ⟨heq2, hx z (List.mem_cons_of_mem y hz)⟩
    · have hyx : scores.getD y 0 < scores.getD x 0 :=
        lt_of_not_le (by simpa [scoreLe] using h)
      simp only [sinsert, h, Bool.false_eq_true, if_false]
      refine List.pairwise_cons.mpr ⟨?_, ih hys (fun z hz => hx z (List.mem_cons_of_mem y hz))⟩
      intro z hz
      rcases (mem_sinsert (scoreLe scores) x z ys).mp hz with rfl | hz
      · exact Or.inl hyx
      · exact hy z hz

theorem ssort_pairwise_slex (scores : List ℚ) (l : List ℕ)
    (hl : l.Pairwise (· < ·)) :
    (ssort (scoreLe scores) l).Pairwise (slexOn scores) := by
  induction l with
  | nil => simp [ssort]
  | cons x xs ih =>
    rcases List.pairwise_cons.mp hl with ⟨hx, hxs⟩
    refine sinsert_pairwise_slex scores x (ssort (scoreLe scores) xs) (ih hxs) ?_
    intro z hz
    exact hx z ((ssort_perm (scoreLe scores) xs).mem_iff.mp hz)

/-! ## PyFloat propagation lemmas -/

theorem PyFloat.nan_add (x : PyFloat) : PyFloat.add PyFloat.nan x = PyFloat.nan := by
  cases x <;> rfl

theorem PyFloat.add_nan (x : PyFloat) : PyFloat.add x PyFloat.nan = PyFloat.nan := by
  cases x <;> rfl

theorem PyFloat.nan_mulc (c : ℚ) : PyFloat.mulc PyFloat.nan c = PyFloat.nan := rfl

/-! ## Claim theorems -/

/-- C1: `_calculate_score` is exactly the weighted sum
`total_cost*1 + spread*5 + travel*2 + connections*500` and
`_calculate_score_v2` is exactly
`flight*1 + hotel*0.8 + transfer*0.5 + spread*5 + travel*2 +
connections*500 + late*200 + complexity*300`; the baseline formula on
`(10000, 120, 600, 0.3)` is `11950`, the extended formula on
`(10000, 5000, 1000, 120, 600, 0.3, 0.2, 50)` is `31490`, raising
`hotel_cost` by `2000` raises the extended score by exactly `1600`, and
raising `late_arrival_risk` from `0.1` to `0.8` raises it by exactly
`140`. -/
theorem c1_scoring_formulas :
    (∀ c s t r : ℚ, calculateScore c s t r = c * 1 + s * 5 + t * 2 + r * 500)
    ∧ (∀ f h tr s t r l o : ℚ, calculateScoreV2 f h tr s t r l o =
        f * 1 + h * (8/10) + tr * (1/2) + s * 5 + t * 2 + r * 500 +
          l * 200 + o * 300)
    ∧ calculateScore 10000 120 600 (3/10) = 11950
    ∧ calculateScoreV2 10000 5000 1000 120 600 (3/10) (2/10) 50 = 31490
    ∧ (∀ f h tr s t r l o : ℚ,
        calculateScoreV2 f (h + 2000) tr s t r l o -
          calculateScoreV2 f h tr s t r l o = 1600)
    ∧ (∀ f h tr s t r o : ℚ,
        calculateScoreV2 f h tr s t r (8/10) o -
          calculateScoreV2 f h tr s t r (1/10) o = 140) := by
  refine ⟨fun c s t r => rfl, fun f h tr s t r l o => rfl, ?_, ?_, ?_, ?_⟩
  · norm_num [calculateScore]
  · norm_num [calculateScoreV2]
  · intro f h tr s t r l o
    simp only [calculateScoreV2]
    ring
  · intro f h tr s t r o
    simp only [calculateScoreV2]
    ring

/-- C2: `ranked_options` is a permutation of `range(len(results))`, the
scores it indexes are ascending along it, and equal scores keep their
original (index) order — `sorted(range(n), key=scores)` is a stable
sort. -/
theorem c2_ranking_stable_sort (scores : List ℚ) (_hne : scores ≠ []) :
    List.Perm (rankedIndices scores) (List.range scores.length)
    ∧ (rankedIndices scores).Chain'
        (fun i j => scores.getD i 0 ≤ scores.getD j 0)
    ∧ (rankedIndices scores).Pairwise
        (fun i j => scores.getD i 0 = scores.getD j 0 → i < j) := by
  have hslex : (rankedIndices scores).Pairwise (slexOn scores) :=
    ssort_pairwise_slex scores (List.range scores.length)
      (List.pairwise_lt_range scores.length)
  refine ⟨ssort_perm _ _, ?_, ?_⟩
  · refine List.Pairwise.chain' (hslex.imp ?_)
    intro i j hij
    rcases hij with hlt | ⟨heq, _⟩
    · exact le_of_lt hlt
    · exact le_of_eq heq
  · refine hslex.imp ?_
    intro i j hij heq
    rcases hij with hlt | ⟨_, hidx⟩
    · exact absurd heq (ne_of_lt hlt)
    · exact hidx

/-- C2 witness: a concrete non-empty score list; the ranking
`[1, 3, 2, 0]` of scores `[3, 1, 2, 1]` is a stable ascending sort of
the indices. -/
theorem c2_ranking_stable_sort_witness :
    ([3, 1, 2, 1] : List ℚ) ≠ []
    ∧ rankedIndices [3, 1, 2, 1] = [1, 3, 2, 0]
    ∧ (List.Perm (rankedIndices [3, 1, 2, 1]) (List.range 4)
        ∧ (rankedIndices [3, 1, 2, 1]).Chain'
            (fun i j => ([3, 1, 2, 1] : List ℚ).getD i 0 ≤ [3, 1, 2, 1].getD j 0)
        ∧ (rankedIndices [3, 1, 2, 1]).Pairwise
            (fun i j => ([3, 1, 2, 1] : List ℚ).getD i 0 = [3, 1, 2, 1].getD j 0 → i < j)) :=
  ⟨by decide, by decide, c2_ranking_stable_sort [3, 1, 2, 1] (by decide)⟩

/-- C10 counterexample: the scoring functions do not fail on non-finite
inputs; they return the propagated non-finite value (NaN in, NaN out;
an infinite flight cost yields an infinite extended score). -/
theorem c10_counterexample :
    calculateScoreF PyFloat.nan (PyFloat.fin 0) (PyFloat.fin 0) (PyFloat.fin 0) =
      PyFloat.nan
    ∧ (calculateScoreF PyFloat.nan (PyFloat.fin 0) (PyFloat.fin 0)
        (PyFloat.fin 0)).isFinite = false
    ∧ calculateScoreV2F PyFloat.inf (PyFloat.fin 0) (PyFloat.fin 0)
        (PyFloat.fin 0) (PyFloat.fin 0) (PyFloat.fin 0) (PyFloat.fin 0)
        (PyFloat.fin 0) = PyFloat.inf := by
  refine ⟨rfl, rfl, ?_⟩
  show PyFloat.add _ _ = _
  norm_num [calculateScoreV2F, PyFloat.mulc, PyFloat.add]

/-- C10 amended: the scoring functions perform no validation at all —
on all-finite inputs they return the finite weighted sum, and a NaN
anywhere propagates to a NaN result instead of an error. -/
theorem c10_amended :
    (∀ c s t r : ℚ,
      calculateScoreF (PyFloat.fin c) (PyFloat.fin s) (PyFloat.fin t)
        (PyFloat.fin r) = PyFloat.fin (calculateScore c s t r))
    ∧ (∀ x1 x2 x3 x4 : PyFloat,
        (x1 = PyFloat.nan ∨ x2 = PyFloat.nan ∨ x3 = PyFloat.nan ∨ x4 = PyFloat.nan) →
        calculateScoreF x1 x2 x3 x4 = PyFloat.nan)
    ∧ (∀ f h tr s t r l o : ℚ,
        calculateScoreV2F (PyFloat.fin f) (PyFloat.fin h) (PyFloat.fin tr)
          (PyFloat.fin s) (PyFloat.fin t) (PyFloat.fin r) (PyFloat.fin l)
          (PyFloat.fin o) = PyFloat.fin (calculateScoreV2 f h tr s t r l o))
    ∧ (∀ y1 y2 y3 y4 y5 y6 y7 y8 : PyFloat,
        (y1 = PyFloat.nan ∨ y2 = PyFloat.nan ∨ y3 = PyFloat.nan ∨
          y4 = PyFloat.nan ∨ y5 = PyFloat.nan ∨ y6 = PyFloat.nan ∨
          y7 = PyFloat.nan ∨ y8 = PyFloat.nan) →
        calculateScoreV2F y1 y2 y3 y4 y5 y6 y7 y8 = PyFloat.nan) := by
  refine ⟨fun c s t r => rfl, ?_, fun f h tr s t r l o => rfl, ?_⟩
  · intro x1 x2 x3 x4 hcase
    rcases hcase with rfl | rfl | rfl | rfl <;>
      simp [calculateScoreF, PyFloat.nan_mulc, PyFloat.nan_add, PyFloat.add_nan]
  · intro y1 y2 y3 y4 y5 y6 y7 y8 hcase
    rcases hcase with rfl | rfl | rfl | rfl | rfl | rfl | rfl | rfl <;>
      simp [calculateScoreV2F, PyFloat.nan_mulc, PyFloat.nan_add, PyFloat.add_nan]

/-- C10 witness: the NaN-propagation branch of the amended claim at a
concrete input. -/
theorem c10_amended_witness :
    (PyFloat.nan = PyFloat.nan ∨ PyFloat.fin 1 = PyFloat.nan ∨
      PyFloat.fin 2 = PyFloat.nan ∨ PyFloat.fin 3 = PyFloat.nan)
    ∧ calculateScoreF PyFloat.nan (PyFloat.fin 1) (PyFloat.fin 2)
        (PyFloat.fin 3) = PyFloat.nan :=
  ⟨Or.inl rfl,
    c10_amended.2.1 PyFloat.nan (PyFloat.fin 1) (PyFloat.fin 2) (PyFloat.fin 3)
      (Or.inl rfl)⟩

/-! ## Lemmas about the room-night computation -/

theorem collectRooms_length (m : ℤ → ℕ) (cur : ℤ) (n : ℕ) :
    (collectRooms m cur n).length = n := by
  induction n generalizing cur with
  | zero => rfl
  | succ k ih => simp [collectRooms, ih]

theorem collectRooms_getD (m : ℤ → ℕ) (cur : ℤ) (n k : ℕ) (hk : k < n) :
    (collectRooms m cur n).getD k 0 = m (cur + k) := by
  induction n generalizing cur k with
  | zero => omega
  | succ j ih =>
    cases k with
    | zero => simp [collectRooms]
    | succ k2 =>
      simp only [collectRooms, List.getD_cons_succ]
      rw [ih (cur + 1) k2 (by omega)]
      congr 1
      push_cast
      ring

theorem bumpNights_apply (n : ℕ) (m : ℤ → ℕ) (cur x : ℤ) :
    bumpNights m cur n x = m x + if cur ≤ x ∧ x < cur + n then 1 else 0 := by
  induction n generalizing m cur with
  | zero =>
    simp only [bumpNights]
    have : ¬(cur ≤ x ∧ x < cur + (0 : ℕ)) := by omega
    simp [this]
  | succ k ih =>
    simp only [bumpNights]
    rw [ih]
    by_cases hx : x = cur
    · subst hx
      simp only [bumpNight]
      split_ifs <;> omega
    · simp only [bumpNight]
      split_ifs <;> omega

theorem bumpRange_apply (m : ℤ → ℕ) (checkIn checkOut x : ℤ) :
    bumpRange m checkIn checkOut x =
      m x + if checkIn ≤ x ∧ x < checkOut then 1 else 0 := by
  unfold bumpRange
  rw [bumpNights_apply]
  by_cases hio : checkIn ≤ checkOut
  · have : checkIn + ((checkOut - checkIn).toNat : ℤ) = checkOut := by omega
    rw [this]
  · have h0 : (checkOut - checkIn).toNat = (0 : ℕ) := by omega
    rw [h0]
    have h1 : ¬(checkIn ≤ x ∧ x < checkIn + (0 : ℕ)) := by omega
    have h2 : ¬(checkIn ≤ x ∧ x < checkOut) := by omega
    simp [h1, h2]

theorem roomsPerNight_apply (pairs : List (ℤ × ℤ)) (es ee x : ℤ) :
    roomsPerNight pairs es ee x =
      pairs.countP (fun p => decide (max p.1 es ≤ x ∧ x < min p.2 ee)) := by
  unfold roomsPerNight
  suffices hgen : ∀ (l : List (ℤ × ℤ)) (m : ℤ → ℕ),
      (l.foldl (fun m p => bumpRange m (max p.1 es) (min p.2 ee)) m) x =
        m x + l.countP (fun p => decide (max p.1 es ≤ x ∧ x < min p.2 ee)) by
    simpa using hgen pairs (fun _ => 0)
  intro l
  induction l with
  | nil => simp
  | cons p t ih =>
    intro m
    simp only [List.foldl_cons, List.countP_cons, ih, bumpRange_apply,
      decide_eq_true_eq]
    by_cases hc : max p.1 es ≤ x ∧ x < min p.2 ee
    · simp only [if_pos hc]
      omega
    · simp only [if_neg hc]
      omega

/-! ## Lemmas about hotel selection -/

theorem pickFold_some_spec (peak : ℕ) (l : List Hotel) (b : Hotel) :
    ∃ c, l.foldl (pickStep peak) (some b) = some c
      ∧ (c = b ∨ (c ∈ l ∧ capacitySkip c peak = false))
      ∧ hotelScore c peak ≤ hotelScore b peak
      ∧ ∀ h ∈ l, capacitySkip h peak = false →
          hotelScore c peak ≤ hotelScore h peak := by
  induction l generalizing b with
  | nil => exact ⟨b, rfl, Or.inl rfl, le_refl _, by simp⟩
  | cons h t ih =>
    by_cases hskip : capacitySkip h peak
    · obtain ⟨c, hc, hmem, hle, hmin⟩ := ih b
      refine ⟨c, ?_, ?_, hle, ?_⟩
      · simpa [pickStep, hskip] using hc
      · rcases hmem with rfl | ⟨hm, hs⟩
        · exact Or.inl rfl
        · exact Or.inr ⟨List.mem_cons_of_mem h hm, hs⟩
      · intro h2 hh2 hs2
        rcases List.mem_cons.mp hh2 with heq | hh2t
        · rw [heq] at hs2; rw [hs2] at hskip; exact absurd hskip (by simp)
        · exact hmin h2 hh2t hs2
    · have hskipf : capacitySkip h peak = false := by
        exact Bool.not_eq_true _ ▸ (by simpa using hskip)
      by_cases hlt : hotelScore h peak < hotelScore b peak
      · obtain ⟨c, hc, hmem, hle, hmin⟩ := ih h
        refine ⟨c, ?_, ?_, le_of_lt (lt_of_le_of_lt hle hlt), ?_⟩
        · simpa [pickStep, hskip, hlt] using hc
        · rcases hmem with rfl | ⟨hm, hs⟩
          · exact Or.inr ⟨List.mem_cons_self c t, hskipf⟩
          · exact Or.inr ⟨List.mem_cons_of_mem h hm, hs⟩
        · intro h2 hh2 hs2
          rcases List.mem_cons.mp hh2 with heq | hh2t
          · rw [heq]; exact hle
          · exact hmin h2 hh2t hs2
      · obtain ⟨c, hc, hmem, hle, hmin⟩ := ih b
        refine ⟨c, ?_, ?_, hle, ?_⟩
        · simpa [pickStep, hskip, hlt] using hc
        · rcases hmem with rfl | ⟨hm, hs⟩
          · exact Or.inl rfl
          · exact Or.inr ⟨List.mem_cons_of_mem h hm, hs⟩
        · intro h2 hh2 hs2
          rcases List.mem_cons.mp hh2 with heq | hh2t
          · rw [heq]; exact le_trans hle (not_lt.mp hlt)
          · exact hmin h2 hh2t hs2

theorem pickFold_none_iff (peak : ℕ) (l : List Hotel) :
    l.foldl (pickStep peak) none = none ↔
      ∀ h ∈ l, capacitySkip h peak = true := by
  induction l with
  | nil => simp
  | cons h t ih =>
    by_cases hskip : capacitySkip h peak
    · simp only [List.foldl_cons, pickStep, hskip, if_true, ih]
      constructor
      · intro hall h2 hh2
        rcases List.mem_cons.mp hh2 with heq | hh2t
        · rw [heq]; exact hskip
        · exact hall h2 hh2t
      · intro hall h2 hh2
        exact hall h2 (List.mem_cons_of_mem h hh2)
    · obtain ⟨c, hc, _, _, _⟩ := pickFold_some_spec peak t h
      have hstep : pickStep peak none h = some h := by simp [pickStep, hskip]
      rw [List.foldl_cons, hstep, hc]
      constructor
      · intro habs
        exact absurd habs (by simp)
      · intro hall
        exact absurd (hall h (List.mem_cons_self h t)) hskip

theorem pickBestHotel_some (hotels : List Hotel) (peak : ℕ) (best : Hotel)
    (hpick : pickBestHotel hotels peak = some best) :
    best ∈ hotels ∧ capacitySkip best peak = false
      ∧ ∀ h ∈ hotels, capacitySkip h peak = false →
          hotelScore best peak ≤ hotelScore h peak := by
  induction hotels with
  | nil => simp [pickBestHotel] at hpick
  | cons h t ih =>
    by_cases hskip : capacitySkip h peak
    · have : pickBestHotel t peak = some best := by
        simpa [pickBestHotel, pickStep, hskip] using hpick
      obtain ⟨hm, hs, hmin⟩ := ih this
      refine ⟨List.mem_cons_of_mem h hm, hs, ?_⟩
      intro h2 hh2 hs2
      rcases List.mem_cons.mp hh2 with heq | hh2t
      · rw [heq] at hs2; rw [hs2] at hskip; exact absurd hskip (by simp)
      · exact hmin h2 hh2t hs2
    · have hskipf : capacitySkip h peak = false := by
        exact Bool.not_eq_true _ ▸ (by simpa using hskip)
      obtain ⟨c, hc, hmem, hle, hmin⟩ := pickFold_some_spec peak t h
      have hfold : List.foldl (pickStep peak) (some h) t = some best := by
        simpa [pickBestHotel, pickStep, hskip] using hpick
      rw [hfold] at hc
      have hbc : best = c := by injection hc
      subst hbc
      refine ⟨?_, ?_, ?_⟩
      · rcases hmem with rfl | ⟨hm, _⟩
        · exact List.mem_cons_self best t
        · exact List.mem_cons_of_mem h hm
      · rcases hmem with rfl | ⟨_, hs⟩
        · exact hskipf
        · exact hs
      · intro h2 hh2 hs2
        rcases List.mem_cons.mp hh2 with heq | hh2t
        · rw [heq]; exact hle
        · exact hmin h2 hh2t hs2

/-- C3: for non-empty arrival and departure lists and any
`duration_days`, `compute_room_nights` returns an analysis whose
per-night sequence has exactly `duration_days` entries — entry `k`
counting the attendees whose clamped stay covers day `event_start + k`
of the window anchored at the earliest arrival date — whose
`peak_occupancy` is the maximum of that sequence, whose
`total_room_nights` is its sum plus `shoulder_nights`, and whose
`nights_with_peak` counts the entries equal to the peak. -/
theorem c3_room_nights (a : ℤ) (as : List ℤ) (d : ℤ) (ds : List ℤ)
    (duration_days : ℕ) :
    (computeRoomNights (a :: as) (d :: ds) duration_days).required_rooms_per_night.length =
        duration_days
    ∧ (computeRoomNights (a :: as) (d :: ds) duration_days).peak_occupancy =
        (computeRoomNights (a :: as) (d :: ds) duration_days).required_rooms_per_night.foldr
          max 0
    ∧ (computeRoomNights (a :: as) (d :: ds) duration_days).total_room_nights =
        (computeRoomNights (a :: as) (d :: ds) duration_days).required_rooms_per_night.sum +
          (computeRoomNights (a :: as) (d :: ds) duration_days).shoulder_nights
    ∧ (computeRoomNights (a :: as) (d :: ds) duration_days).nights_with_peak =
        (computeRoomNights (a :: as) (d :: ds) duration_days).required_rooms_per_night.countP
          (· = (computeRoomNights (a :: as) (d :: ds) duration_days).peak_occupancy)
    ∧ ∀ k, k < duration_days →
        (computeRoomNights (a :: as) (d :: ds) duration_days).required_rooms_per_night.getD
            k 0 =
          (((a :: as).map dtDate).zip ((d :: ds).map dtDate)).countP
            (fun p => decide (max p.1 (hotelEventStart a as) ≤ hotelEventStart a as + k ∧
              hotelEventStart a as + k <
                min p.2 (hotelEventStart a as + duration_days))) := by
  refine ⟨?_, rfl, rfl, rfl, ?_⟩
  · simp only [computeRoomNights]
    rw [collectRooms_length]
    omega
  · intro k hk
    simp only [computeRoomNights]
    rw [collectRooms_getD _ _ _ k (by omega), roomsPerNight_apply]

/-- C4 counterexample: `select_optimal_hotel` does not price the stay
as `total_room_nights * rate`.  With one approved hotel at rate 200 and
an analysis with `total_room_nights = 10` and `shoulder_nights = 2`,
the assignment costs `(10 + 2) * 200 = 2400`, not `10 * 200 = 2000`. -/
theorem c4_counterexample :
    (selectOptimalHotel [⟨7, some 200, some 1, some 50⟩] ⟨[4, 4], 4, 2, 10, 2⟩).map
        HotelAssignment.total_cost = some 2400
    ∧ ((2400 : ℚ) ≠ (10 : ℚ) * 200) := by
  constructor
  · simp only [selectOptimalHotel, pickBestHotel, List.foldl, pickStep,
      capacitySkip, nTruthy, calculateHotelCost, qTruthy]
    norm_num
  · norm_num

/-- C4 amended: `select_optimal_hotel` skips only hotels with a
recorded non-zero capacity below `peak_occupancy` (so a hotel with no
capacity on record is always considered, and `None` is returned exactly
when every candidate is skipped or the list is empty); among survivors
it picks a minimiser of
`rate*100 (or 10000 when the rate is missing or zero) + distance*10 +
|capacity - peak|*5`; the assignment's cost is
`(total_room_nights + shoulder_nights) * rate` when a non-zero rate is
recorded and `total_room_nights * 150` otherwise. -/
theorem c4_amended (hotels : List Hotel) (rn : RoomNightAnalysis) :
    (selectOptimalHotel hotels rn = none ↔
      ∀ h ∈ hotels, capacitySkip h rn.peak_occupancy = true)
    ∧ (∀ asg, selectOptimalHotel hotels rn = some asg →
        ∃ h, h ∈ hotels ∧ capacitySkip h rn.peak_occupancy = false
          ∧ (∀ h2 ∈ hotels, capacitySkip h2 rn.peak_occupancy = false →
              hotelScore h rn.peak_occupancy ≤ hotelScore h2 rn.peak_occupancy)
          ∧ asg = { hotel_id := h.id
                    total_cost := calculateHotelCost h rn.total_room_nights
                      rn.shoulder_nights
                    room_nights := rn.total_room_nights
                    extra_nights := rn.shoulder_nights
                    room_night_analysis := rn })
    ∧ (∀ h : Hotel, qTruthy h.corporate_rate = true →
        calculateHotelCost h rn.total_room_nights rn.shoulder_nights =
          ((rn.total_room_nights : ℚ) + (rn.shoulder_nights : ℚ)) *
            h.corporate_rate.getD 0)
    ∧ (∀ h : Hotel, qTruthy h.corporate_rate = false →
        calculateHotelCost h rn.total_room_nights rn.shoulder_nights =
          (rn.total_room_nights : ℚ) * 150) := by
  refine ⟨?_, ?_, ?_, ?_⟩
  · unfold selectOptimalHotel
    by_cases hemp : hotels = []
    · subst hemp
      simp
    · rw [if_neg hemp]
      cases hp : pickBestHotel hotels rn.peak_occupancy with
      | none =>
        simp only []
        constructor
        · intro _
          exact (pickFold_none_iff rn.peak_occupancy hotels).mp hp
        · intro _
          trivial
      | some best =>
        obtain ⟨hm, hs, _⟩ := pickBestHotel_some hotels rn.peak_occupancy best hp
        simp only []
        constructor
        · intro habs
          exact absurd habs (by simp)
        · intro hall
          rw [hall best hm] at hs
          exact absurd hs (by simp)
  · intro asg hsome
    unfold selectOptimalHotel at hsome
    by_cases hemp : hotels = []
    · rw [if_pos hemp] at hsome
      exact absurd hsome (by simp)
    · rw [if_neg hemp] at hsome
      cases hp : pickBestHotel hotels rn.peak_occupancy with
      | none =>
        rw [hp] at hsome
        exact absurd hsome (by simp)
      | some best =>
        rw [hp] at hsome
        obtain ⟨hm, hs, hmin⟩ := pickBestHotel_some hotels rn.peak_occupancy best hp
        refine ⟨best, hm, hs, hmin, ?_⟩
        exact (Option.some.injEq _ _).mp hsome.symm
  · intro h hq
    unfold calculateHotelCost
    rw [if_pos hq]
    ring
  · intro h hq
    unfold calculateHotelCost
    rw [if_neg (by simp [hq])]

/-- C4 witness: the amended characterisation at the counterexample
instance, where the single candidate is selected and priced at
`(10 + 2) * 200`. -/
theorem c4_amended_witness :
    selectOptimalHotel [⟨7, some 200, some 1, some 50⟩] ⟨[4, 4], 4, 2, 10, 2⟩ =
      some ⟨7, 2400, 10, 2, ⟨[4, 4], 4, 2, 10, 2⟩⟩
    ∧ ∃ h, h ∈ [(⟨7, some 200, some 1, some 50⟩ : Hotel)]
      ∧ capacitySkip h 4 = false
      ∧ (∀ h2 ∈ [(⟨7, some 200, some 1, some 50⟩ : Hotel)],
          capacitySkip h2 4 = false → hotelScore h 4 ≤ hotelScore h2 4)
      ∧ (⟨7, 2400, 10, 2, ⟨[4, 4], 4, 2, 10, 2⟩⟩ : HotelAssignment) =
          { hotel_id := h.id
            total_cost := calculateHotelCost h 10 2
            room_nights := 10
            extra_nights := 2
            room_night_analysis := ⟨[4, 4], 4, 2, 10, 2⟩ } := by
  have heval : selectOptimalHotel [⟨7, some 200, some 1, some 50⟩]
      ⟨[4, 4], 4, 2, 10, 2⟩ = some ⟨7, 2400, 10, 2, ⟨[4, 4], 4, 2, 10, 2⟩⟩ := by
    simp only [selectOptimalHotel, pickBestHotel, List.foldl, pickStep,
      capacitySkip, nTruthy, calculateHotelCost, qTruthy]
    norm_num
  exact ⟨heval,
    (c4_amended [⟨7, some 200, some 1, some 50⟩] ⟨[4, 4], 4, 2, 10, 2⟩).2.1
      ⟨7, 2400, 10, 2, ⟨[4, 4], 4, 2, 10, 2⟩⟩ heval⟩

/-- C5: `calculate_hotel_cost` with a corporate rate of 200,
`room_nights=10` and `extra_nights=2` gives `200 * 12 = 2400` as the
claim states; but with no corporate rate it returns
`room_nights * 150 = 1500`, NOT the claimed `150 * 12 = 1800` — the
fallback branch ignores `extra_nights`, contradicting the module's own
test `test_calculate_hotel_cost_no_rate`. -/
theorem c5_hotel_cost_eval :
    calculateHotelCost ⟨1, some 200, none, some 50⟩ 10 2 = 200 * 12
    ∧ calculateHotelCost ⟨1, none, none, some 50⟩ 10 2 = 1500
    ∧ ((1500 : ℚ) ≠ 150 * 12) := by
  refine ⟨?_, ?_, by norm_num⟩ <;> norm_num [calculateHotelCost, qTruthy]

/-! ## Lemmas about wave clustering -/

theorem wavesGo_eq (window : ℤ) (l : List (ℤ × ℕ)) :
    ∀ (s e : ℤ) (c : ℕ) (ids : List ℕ),
    wavesGo window ⟨s, e, c, ids⟩ l =
      (⟨s, e, c + (l.takeWhile (fun p => decide (p.1 ≤ e))).length,
        ids ++ (l.takeWhile (fun p => decide (p.1 ≤ e))).map Prod.snd⟩ :
          TransferWave) ::
      specWaves window (l.dropWhile (fun p => decide (p.1 ≤ e))) := by
  induction l with
  | nil =>
    intro s e c ids
    simp [wavesGo, specWaves]
  | cons p rest ih =>
    intro s e c ids
    obtain ⟨t, i⟩ := p
    by_cases h : t ≤ e
    · have h1 : wavesGo window ⟨s, e, c, ids⟩ ((t, i) :: rest) =
          wavesGo window ⟨s, e, c + 1, ids ++ [i]⟩ rest := by
        simp [wavesGo, h]
      have h2 : List.takeWhile (fun p : ℤ × ℕ => decide (p.1 ≤ e)) ((t, i) :: rest) =
          (t, i) :: List.takeWhile (fun p : ℤ × ℕ => decide (p.1 ≤ e)) rest := by
        simp [List.takeWhile_cons, h]
      have h3 : List.dropWhile (fun p : ℤ × ℕ => decide (p.1 ≤ e)) ((t, i) :: rest) =
          List.dropWhile (fun p : ℤ × ℕ => decide (p.1 ≤ e)) rest := by
        simp [List.dropWhile_cons, h]
      rw [h1, ih, h2, h3]
      simp only [List.length_cons, List.map_cons, List.cons.injEq]
      refine ⟨?_, trivial⟩
      congr 1
      · omega
      · simp
    · have h1 : wavesGo window ⟨s, e, c, ids⟩ ((t, i) :: rest) =
          (⟨s, e, c, ids⟩ : TransferWave) ::
            wavesGo window ⟨t, t + window, 1, [i]⟩ rest := by
        simp [wavesGo, h]
      have h2 : List.takeWhile (fun p : ℤ × ℕ => decide (p.1 ≤ e)) ((t, i) :: rest) =
          [] := by
        simp [List.takeWhile_cons, h]
      have h3 : List.dropWhile (fun p : ℤ × ℕ => decide (p.1 ≤ e)) ((t, i) :: rest) =
          (t, i) :: rest := by
        simp [List.dropWhile_cons, h]
      rw [h1, ih, h2, h3]
      simp [specWaves]

/-- C6: `compute_arrival_waves` equals the specification's greedy
clustering — sort the `(time, id)` pairs, anchor a wave at the first
unclustered arrival with `wave_end = wave_start + window` (the window
is fixed once opened), absorb every arrival up to `wave_end`, and
anchor the next wave at the first later arrival — and the sorted pairs
are ascending in time. -/
theorem c6_arrival_waves (arrival_times : List ℤ) (attendee_ids : List ℕ)
    (window : ℤ) (hne : arrival_times ≠ []) (hine : attendee_ids ≠ [])
    (hlen : arrival_times.length = attendee_ids.length) :
    computeArrivalWaves arrival_times attendee_ids window =
      some (specWaves window (ssort pairLe (arrival_times.zip attendee_ids)))
    ∧ (ssort pairLe (arrival_times.zip attendee_ids)).Pairwise
        (fun p q => p.1 ≤ q.1) := by
  constructor
  · unfold computeArrivalWaves
    rw [if_neg (by simp [hne, hine]), if_neg (by simp [hlen])]
    cases hs : ssort pairLe (arrival_times.zip attendee_ids) with
    | nil => simp [specWaves]
    | cons p rest =>
      obtain ⟨t, i⟩ := p
      dsimp only []
      rw [wavesGo_eq]
      simp [specWaves]
  · have htot : ∀ p q : ℤ × ℕ, pairLe p q = true ∨ pairLe q p = true := by
      intro p q
      simp only [pairLe, decide_eq_true_eq]
      omega
    have htrans : ∀ p q r : ℤ × ℕ,
        pairLe p q = true → pairLe q r = true → pairLe p r = true := by
      intro p q r
      simp only [pairLe, decide_eq_true_eq]
      omega
    refine (ssort_pairwise pairLe htot htrans _).imp ?_
    intro p q hpq
    simp only [pairLe, decide_eq_true_eq] at hpq
    omega

/-- C6 witness: five arrivals at minute offsets 0, 10, 20, 45, 50 with
a 30-minute window cluster into exactly two waves of sizes 3 and 2. -/
theorem c6_arrival_waves_witness :
    ([0, 10, 20, 45, 50] : List ℤ) ≠ []
    ∧ ([1, 2, 3, 4, 5] : List ℕ) ≠ []
    ∧ ([0, 10, 20, 45, 50] : List ℤ).length = ([1, 2, 3, 4, 5] : List ℕ).length
    ∧ computeArrivalWaves [0, 10, 20, 45, 50] [1, 2, 3, 4, 5] 30 =
        some (specWaves 30
          (ssort pairLe (([0, 10, 20, 45, 50] : List ℤ).zip [1, 2, 3, 4, 5])))
    ∧ (computeArrivalWaves [0, 10, 20, 45, 50] [1, 2, 3, 4, 5] 30).map
        (List.map TransferWave.attendee_count) = some [3, 2] :=
  ⟨by decide, by decide, by decide,
    (c6_arrival_waves [0, 10, 20, 45, 50] [1, 2, 3, 4, 5] 30 (by decide)
      (by decide) (by decide)).1,
    by decide⟩

/-- C7: evaluating a generated `nearby_airport` proposal raises
`NameError` (the list comprehension in `_apply_proposal` references the
undefined variable `alt`), so `evaluate_proposals` produces no
`WhatIfResult` for it and errors out instead of computing a delta; a
proposal of unsupported type, by contrast, really is silently
skipped. -/
theorem c7_nearby_airport_crash :
    (∀ simulateFn, evaluateProposals simulateFn
        [⟨"nearby_airport", 0, "LIS", "OPO"⟩]
        ⟨"Offsite", ["LIS"], [(19875, 19882)], 3⟩
        ⟨[⟨1000, 1200⟩], [0]⟩ = Except.error PyErr.nameErrorAlt)
    ∧ (∀ simulateFn, evaluateProposals simulateFn
        [⟨"arrival_window", 0, "LIS", "OPO"⟩]
        ⟨"Offsite", ["LIS"], [(19875, 19882)], 3⟩
        ⟨[⟨1000, 1200⟩], [0]⟩ = Except.ok []) := by
  exact ⟨fun _ => rfl, fun _ => rfl⟩

/-- C9 amended: the `total_cost` of every returned `TransferPlan` is
the sum of its legs' costs rounded to cents; in particular it equals
that sum exactly whenever the sum is a whole number of cents. -/
theorem c9_amended (waves : List TransferWave) (options : List TransferOption)
    (plan : TransferPlan) (h : optimizeTransfers waves options = some plan) :
    plan.total_cost = pyRound2 ((plan.legs.map TransferLeg.total_cost).sum)
    ∧ ∀ k : ℤ, ((plan.legs.map TransferLeg.total_cost).sum) * 100 = (k : ℚ) →
        plan.total_cost = (plan.legs.map TransferLeg.total_cost).sum := by
  unfold optimizeTransfers at h
  by_cases hemp : options = []
  · rw [if_pos hemp] at h
    exact absurd h (by simp)
  · rw [if_neg hemp] at h
    cases h1 : chooseOption options TransferMode.van with
    | none =>
      rw [h1] at h
      exact absurd h (by simp)
    | some van =>
      cases h2 : chooseOption options TransferMode.uber with
      | none =>
        rw [h1, h2] at h
        exact absurd h (by simp)
      | some uber =>
        rw [h1, h2] at h
        have hplan := (Option.some.injEq _ _).mp h
        subst hplan
        refine ⟨rfl, ?_⟩
        intro k hk
        exact pyRound2_int _ k hk

/-- C9 witness: one three-person wave served by one van at 50 per trip;
the rounded total equals the exact legs sum `50`. -/
theorem c9_amended_witness :
    optimizeTransfers [⟨0, 30, 3, [1, 2, 3]⟩] [⟨TransferMode.van, 4, 50⟩] =
      some ⟨50, 1, [⟨⟨0, 30, 3, [1, 2, 3]⟩, TransferMode.van, 1, 50, 3/4⟩], 23⟩
    ∧ (⟨50, 1, [⟨⟨0, 30, 3, [1, 2, 3]⟩, TransferMode.van, 1, 50, 3/4⟩],
        23⟩ : TransferPlan).total_cost =
      ((⟨50, 1, [⟨⟨0, 30, 3, [1, 2, 3]⟩, TransferMode.van, 1, 50, 3/4⟩],
        23⟩ : TransferPlan).legs.map TransferLeg.total_cost).sum := by
  have hround : pyRound2 (50 : ℚ) = 50 := pyRound2_int 50 5000 (by norm_num)
  have hvan : chooseOption [⟨TransferMode.van, 4, (50 : ℚ)⟩] TransferMode.van =
      some ⟨TransferMode.van, 4, 50⟩ := rfl
  have huber : chooseOption [⟨TransferMode.van, 4, (50 : ℚ)⟩] TransferMode.uber =
      some ⟨TransferMode.van, 4, 50⟩ := rfl
  have heval : optimizeTransfers [⟨0, 30, 3, [1, 2, 3]⟩] [⟨TransferMode.van, 4, 50⟩] =
      some ⟨50, 1, [⟨⟨0, 30, 3, [1, 2, 3]⟩, TransferMode.van, 1, 50, 3/4⟩], 23⟩ := by
    unfold optimizeTransfers
    rw [if_neg (by simp), hvan, huber]
    norm_num [legForWave, calculateComplexityScore, List.dedup_cons_of_not_mem,
      TransferPlan.mk.injEq, TransferLeg.mk.injEq, hround]
  refine ⟨heval, ?_⟩
  have h2 := c9_amended [⟨0, 30, 3, [1, 2, 3]⟩] [⟨TransferMode.van, 4, 50⟩] _ heval
  exact h2.2 5000 (by norm_num)

/-- C9 counterexample: with a trip cost that is not a whole number of
cents (`0.007`), the plan's `total_cost` is the rounded `0.01`, not the
exact legs sum `0.007`. -/
theorem c9_counterexample :
    (optimizeTransfers [⟨0, 30, 1, [1]⟩]
        [⟨TransferMode.uber, 4, 7/1000⟩]).map TransferPlan.total_cost =
      some (1/100)
    ∧ (optimizeTransfers [⟨0, 30, 1, [1]⟩]
        [⟨TransferMode.uber, 4, 7/1000⟩]).map
          (fun p => (p.legs.map TransferLeg.total_cost).sum) = some (7/1000)
    ∧ ((1/100 : ℚ) ≠ 7/1000) := by
  have hround : pyRound2 ((7 : ℚ)/1000) = 1/100 := by
    have h := pyRound2_high ((7 : ℚ)/1000) 0 (by norm_num) (by norm_num)
    rw [h]
    norm_num
  have hvan : chooseOption [⟨TransferMode.uber, 4, (7 : ℚ)/1000⟩] TransferMode.van =
      some ⟨TransferMode.uber, 4, 7/1000⟩ := rfl
  have huber : chooseOption [⟨TransferMode.uber, 4, (7 : ℚ)/1000⟩] TransferMode.uber =
      some ⟨TransferMode.uber, 4, 7/1000⟩ := rfl
  have heval : optimizeTransfers [⟨0, 30, 1, [1]⟩] [⟨TransferMode.uber, 4, 7/1000⟩] =
      some ⟨1/100, 1, [⟨⟨0, 30, 1, [1]⟩, TransferMode.uber, 1, 7/1000, 1⟩], 18⟩ := by
    unfold optimizeTransfers
    rw [if_neg (by simp), hvan, huber]
    norm_num [legForWave, calculateComplexityScore, List.dedup_cons_of_not_mem,
      TransferPlan.mk.injEq, TransferLeg.mk.injEq, hround]
  rw [heval]
  refine ⟨by norm_num, by norm_num, by norm_num⟩

/-! ## Lemmas about the mock pricing draw -/

theorem pyRandomU_nonneg (n : ℕ) : 0 ≤ pyRandomU n := by
  unfold pyRandomU
  positivity

theorem classMultiplier_economy : classMultiplier economyBytes = 1 := by decide

theorem classMultiplier_business : classMultiplier businessBytes = 3 := by decide

set_option maxRecDepth 1000000 in
/-- C8 counterexample: because the RNG seed string contains
`str(constraints)` — hence the travel class — switching from economy to
business re-draws the base price; for `LIS → DXB`,
`2024-06-01/2024-06-04`, the business itinerary costs `927.99` while
the economy itinerary costs `1985.58`, so the price strictly
decreases. -/
theorem c8_counterexample :
    mockPrice lisBytes dxbBytes d0601Bytes d0604Bytes businessBytes <
      mockPrice lisBytes dxbBytes d0601Bytes d0604Bytes economyBytes := by
  have he : pyRandomNum (md5Int (seedBytes lisBytes dxbBytes d0601Bytes
      d0604Bytes economyBytes)) = 8935023485944602 := by decide
  have hb : pyRandomNum (md5Int (seedBytes lisBytes dxbBytes d0601Bytes
      d0604Bytes businessBytes)) = 547095212682588 := by decide
  unfold mockPrice mockBasePrice pyRandomU
  rw [he, hb, classMultiplier_economy, classMultiplier_business]
  push_cast
  have h1 : pyRound2 ((200 + (547095212682588 : ℚ) / 9007199254740992 * 1800) * 3) =
      ((92799 : ℤ) : ℚ) / 100 :=
    pyRound2_low _ 92799 (by norm_num) (by norm_num)
  have h2 : pyRound2 ((200 + (8935023485944602 : ℚ) / 9007199254740992 * 1800) * 1) =
      ((198557 + 1 : ℤ) : ℚ) / 100 :=
    pyRound2_high _ 198557 (by norm_num) (by norm_num)
  rw [h1, h2]
  norm_num

/-- C8 amended: the travel class feeds the RNG seed, so the base price
is re-drawn per class; the price strictly increases from economy to
business whenever the business-seed draw is at least the economy-seed
draw (the 3x multiplier then dominates even the cent rounding), but
not in general. -/
theorem c8_amended (origin destination depart_date return_date : List ℕ)
    (h : pyRandomNum (md5Int (seedBytes origin destination depart_date
        return_date economyBytes)) ≤
      pyRandomNum (md5Int (seedBytes origin destination depart_date
        return_date businessBytes))) :
    mockPrice origin destination depart_date return_date economyBytes <
      mockPrice origin destination depart_date return_date businessBytes := by
  have hue : (0 : ℚ) ≤ pyRandomU (md5Int (seedBytes origin destination
      depart_date return_date economyBytes)) := pyRandomU_nonneg _
  have hle : pyRandomU (md5Int (seedBytes origin destination depart_date
        return_date economyBytes)) ≤
      pyRandomU (md5Int (seedBytes origin destination depart_date
        return_date businessBytes)) := by
    unfold pyRandomU
    exact (div_le_div_iff_of_pos_right (by norm_num)).mpr (by exact_mod_cast h)
  unfold mockPrice mockBasePrice
  rw [classMultiplier_economy, classMultiplier_business]
  obtain ⟨l1, r1⟩ := pyRound2_bounds ((200 + pyRandomU (md5Int (seedBytes origin
    destination depart_date return_date economyBytes)) * 1800) * 1)
  obtain ⟨l2, r2⟩ := pyRound2_bounds ((200 + pyRandomU (md5Int (seedBytes origin
    destination depart_date return_date businessBytes)) * 1800) * 3)
  linarith

set_option maxRecDepth 1000000 in
/-- C8 witness: for `MUC → LIS`, `2024-06-01/2024-06-04`, the
business-seed draw exceeds the economy-seed draw, and the business
price is indeed strictly higher. -/
theorem c8_amended_witness :
    pyRandomNum (md5Int (seedBytes mucBytes lisBytes d0601Bytes d0604Bytes
        economyBytes)) ≤
      pyRandomNum (md5Int (seedBytes mucBytes lisBytes d0601Bytes d0604Bytes
        businessBytes))
    ∧ mockPrice mucBytes lisBytes d0601Bytes d0604Bytes economyBytes <
        mockPrice mucBytes lisBytes d0601Bytes d0604Bytes businessBytes := by
  have h : pyRandomNum (md5Int (seedBytes mucBytes lisBytes d0601Bytes
      d0604Bytes economyBytes)) ≤
      pyRandomNum (md5Int (seedBytes mucBytes lisBytes d0601Bytes d0604Bytes
        businessBytes)) := by
    have h1 : pyRandomNum (md5Int (seedBytes mucBytes lisBytes d0601Bytes
        d0604Bytes economyBytes)) = 644939710603328 := by decide
    have h2 : pyRandomNum (md5Int (seedBytes mucBytes lisBytes d0601Bytes
        d0604Bytes businessBytes)) = 7629045374453151 := by decide
    rw [h1, h2]
    norm_num
  exact ⟨h, c8_amended mucBytes lisBytes d0601Bytes d0604Bytes h⟩

end GroupTravel
